import Mathlib

/-!
Verification development for the score-details backfill scripts.

Shallow embedding of the two variants of the backfill driver:
* `src/src/script.ts` — the point-query variant (`processUnit`, `runLoop`,
  `backfillRun`), with `BULK_FLUSH_SIZE = 3` and `MAX_REQUESTS = 3`;
* `src/unnamed/part_000` — the streaming-cursor variant (`buildGroups`,
  `enqueueGroups`, `streamProcessBatch`), with `STREAM_BULK_FLUSH_SIZE = 1000`.

Modelling conventions:
* SQL NULL and JS `undefined` are `Option.none`; a JS expression
  `x || undefined` on a string is `strOrUndef` (empty string is falsy).
* PostgreSQL `numeric` scores are rationals; `Math.round` is `jsRound`
  (floor of x + 1/2, which is how JS rounds halves up).
* The elasticsearch client is a deterministic function `Store` from the
  submitted bulk operations to a response; each response item is modelled
  by its `hadError` bit.  A bulk header/doc pair is one `BulkOp`.
* The filesystem holds the progress file and its temp file (`FS`); the
  JSONL failure file is the `failLog` list of (id, reason) pairs
  (timestamps are not modelled).  The per-flush console line is recorded
  in `log` as (reason, batch size).
-/

namespace Backfill

/-- Output shape of one score detail (TS type `ScoreDetailOut`). -/
structure ScoreDetailOut where
  categoryId : String
  categorySlug : Option String
  categoryName : Option String
  score : Int
  justification : Option String
  phrases : Option (List String)
deriving DecidableEq

/-- One row of the per-unit detail query in the point-query variant
(columns `category_id, score, justification, phrases, category_slug,
category_name`). -/
structure DetailRow where
  category_id : String
  score : Rat
  justification : Option String
  phrases : Option (List String)
  category_slug : Option String
  category_name : Option String
deriving DecidableEq

/-- One row of the per-unit tenant-resolution query (columns
`client_external_id, contact_client_external_id`). -/
structure EvRow where
  client_external_id : Option String
  contact_client_external_id : Option String
deriving DecidableEq

/-- JS `x || undefined` for a nullable string: empty string is falsy. -/
def strOrUndef (o : Option String) : Option String :=
  match o with
  | some s => if s = "" then none else some s
  | none => none

/-- JS `Array.isArray(x) && x.length ? x : undefined` for a nullable list. -/
def phrasesOrUndef (o : Option (List String)) : Option (List String) :=
  match o with
  | some l => if 0 < l.length then some l else none
  | none => none

/-- JS `Math.round` on the stored numeric score: halves round up. -/
def jsRound (q : Rat) : Int := Int.floor (q + 1/2)

/-- JS `String.prototype.toLowerCase()` (ASCII identifiers): lower-case
every character. -/
def jsToLower (s : String) : String := String.mk (s.data.map Char.toLower)

/-- The `.map` step building a `ScoreDetailOut` from a detail row
(script.ts lines 202–209). -/
def mkScoreDetail (d : DetailRow) : ScoreDetailOut :=
  { categoryId := d.category_id
    categorySlug := strOrUndef d.category_slug
    categoryName := strOrUndef d.category_name
    score := jsRound d.score
    justification := strOrUndef d.justification
    phrases := phrasesOrUndef d.phrases }

/-- JS truthiness of an optional string field of the mapped output. -/
def jsTruthyStr (o : Option String) : Bool :=
  match o with
  | some s => s != ""
  | none => false

/-- JS truthiness of `Array.isArray(x) && x.length > 0`. -/
def jsTruthyPhrases (o : Option (List String)) : Bool :=
  match o with
  | some l => decide (0 < l.length)
  | none => false

/-- The `.filter` predicate on mapped details (script.ts lines 210–216):
keep a detail if slug, name, justification, or phrases are present. -/
def keepDetail (d : ScoreDetailOut) : Bool :=
  jsTruthyStr d.categorySlug || jsTruthyStr d.categoryName ||
    jsTruthyStr d.justification || jsTruthyPhrases d.phrases

/-- `(ev?.client_external_id || ev?.contact_client_external_id || "")`
(script.ts line 234): first truthy of the two external ids, else "". -/
def resolveClientRaw (ev : Option EvRow) : String :=
  match ev with
  | none => ""
  | some e =>
    let a := (e.client_external_id).getD ""
    if a ≠ "" then a
    else
      let b := (e.contact_client_external_id).getD ""
      if b ≠ "" then b else ""

/-- The resolved, lowercased external client id (script.ts line 234). -/
def resolveClient (ev : Option EvRow) : String :=
  jsToLower (resolveClientRaw ev)

/-- script.ts line 153. -/
def EXCLUDED_CLIENT_ID : String := "0e57b625-ff35-11ef-8005-0ebcd8044491"

/-- script.ts line 76. -/
def BULK_FLUSH_SIZE : Nat := 3

/-- script.ts line 154 (truthy, so the early-stop check is active). -/
def MAX_REQUESTS : Nat := 3

/-- part_000 line 73. -/
def STREAM_BULK_FLUSH_SIZE : Nat := 1000

/-- One update operation in the bulk buffer: the action header
(`_index`, `_id`, retry/alias flags are constant) fused with its
`{ doc: { scoreDetails } }` body. -/
structure BulkOp where
  indexName : String
  id : String
  doc : List ScoreDetailOut
deriving DecidableEq

/-- A bulk response: either a transport-level error (the `catch` branch)
or a request-level success carrying one `hadError` bit per item. -/
inductive BulkResponse where
  | transportError
  | success (items : List Bool)
deriving DecidableEq

/-- The document store, as a deterministic function of the submitted
operations. -/
def Store : Type := List BulkOp → BulkResponse

/-- Filesystem state for the progress file: the `.tmp` file and the
progress file proper, each `none` when absent. -/
structure FS where
  tmpFile : Option (List String)
  progressFile : Option (List String)
deriving DecidableEq

/-- `fs.writeFileSync(tmp, ...)` of the full processed set. -/
def fsWriteTmp (fs : FS) (content : List String) : FS :=
  { fs with tmpFile := some content }

/-- `fs.renameSync(tmp, PROGRESS_FILE)`. -/
def fsRename (fs : FS) : FS :=
  { tmpFile := none, progressFile := fs.tmpFile }

/-- `saveProgress` (script.ts lines 62–66): write the whole set to the
temp file, then atomically rename it over the progress file. -/
def saveProgress (fs : FS) (processed : List String) : FS :=
  fsRename (fsWriteTmp fs processed)

/-- `appendFailed` (script.ts lines 68–74): append one JSONL record per
id with the given reason. -/
def appendFailed (failLog : List (String × String)) (ids : List String)
    (reason : String) : List (String × String) :=
  failLog ++ ids.map (fun id => (id, reason))

/-- JS `Set.add`: append the id if it is not already a member
(insertion-ordered set). -/
def insertUnique (l : List String) (a : String) : List String :=
  if a ∈ l then l else l ++ [a]

/-- `loadProgress` (script.ts lines 45–60): `new Set(arr)` over the
persisted array (missing file degrades to the empty set). -/
def loadProgress (fs : FS) : List String :=
  (fs.progressFile.getD []).foldl insertUnique []

/-- The driver's whole mutable state during one run. -/
structure RunState where
  processed : List String
  fs : FS
  failLog : List (String × String)
  bulkOps : List BulkOp
  bulkCount : Nat
  pendingIds : List String
  success : Nat
  failed : Nat
  skipped : Nat
  processedCount : Nat
  log : List (String × Nat)
deriving DecidableEq

/-- Result record of `flushBulk`. -/
structure FlushResult where
  ok : Nat
  fail : Nat
  succeededIds : List String
  failedIds : List String
deriving DecidableEq

/-- The positional pairing loop of `flushBulk` (script.ts lines 115–133):
walk the response items; `pendingIds[i]` goes to `succeededIds` or
`failedIds` according to the item's error marker; an item beyond the end
of `pendingIds` has `evId` undefined and is recorded in neither list. -/
def classifyItems : List Bool → List String → List String × List String
  | [], _ => ([], [])
  | _ :: items, [] => classifyItems items []
  | e :: items, id :: rest =>
    let sf := classifyItems items rest
    if e then (sf.1, id :: sf.2) else (id :: sf.1, sf.2)

/-- `flushBulk` (script.ts lines 81–143).  Empty buffer: no-op.
Transport error: all pending ids failed, buffers cleared.  Success:
positional classification; `ok` counts non-error items, `fail` is
`items.length - ok`; buffers cleared.  The console line of each actual
submission is recorded in `log` as (reason, batch size). -/
def flushBulk (store : Store) (reason : String) (st : RunState) :
    FlushResult × RunState :=
  if st.bulkOps = [] then
    ({ ok := 0, fail := 0, succeededIds := [], failedIds := [] }, st)
  else
    match store st.bulkOps with
    | .transportError =>
      ({ ok := 0, fail := st.pendingIds.length, succeededIds := [],
         failedIds := st.pendingIds },
       { st with bulkOps := [], bulkCount := 0, pendingIds := [],
                 log := st.log ++ [(reason, st.pendingIds.length)] })
    | .success items =>
      let sf := classifyItems items st.pendingIds
      let ok := (items.filter (fun e => !e)).length
      ({ ok := ok, fail := items.length - ok, succeededIds := sf.1,
         failedIds := sf.2 },
       { st with bulkOps := [], bulkCount := 0, pendingIds := [],
                 log := st.log ++ [(reason, st.pendingIds.length)] })

/-- `queueUpdate` (script.ts lines 145–152). -/
def queueUpdate (st : RunState) (indexName id : String)
    (doc : List ScoreDetailOut) : RunState :=
  { st with bulkOps := st.bulkOps ++ [{ indexName := indexName, id := id, doc := doc }],
            bulkCount := st.bulkCount + 1,
            pendingIds := st.pendingIds ++ [id] }

/-- The driver's walk over `succeededIds` (script.ts lines 250–256):
add each id not already present and count how many were added. -/
def addSucceeded : List String → List String → List String × Nat
  | [], processed => (processed, 0)
  | id :: rest, processed =>
    if id ∈ processed then addSucceeded rest processed
    else
      let pn := addSucceeded rest (processed ++ [id])
      (pn.1, pn.2 + 1)

/-- The driver's post-flush bookkeeping (script.ts lines 246–259 and
263–276): add counters, checkpoint the succeeded ids, persist if the set
grew, append the failed ids to the failure log. -/
def reconcile (reason : String) (r : FlushResult) (st : RunState) : RunState :=
  let pa := addSucceeded r.succeededIds st.processed
  { st with
    success := st.success + r.ok
    failed := st.failed + r.fail
    processed := pa.1
    fs := if 0 < pa.2 then saveProgress st.fs pa.1 else st.fs
    failLog := if r.failedIds = [] then st.failLog
               else appendFailed st.failLog r.failedIds reason }

/-- One flush followed by the driver's bookkeeping. -/
def flushAndReconcile (store : Store) (flushReason appendReason : String)
    (st : RunState) : RunState :=
  let rs := flushBulk store flushReason st
  reconcile appendReason rs.1 rs.2

/-- The relational data visible to the point-query variant: the per-unit
detail rows and the per-unit tenant-resolution row. -/
structure PgData where
  details : String → List DetailRow
  ev : String → Option EvRow

/-- The body of the per-unit loop of `backfillScoreDetailsLocal`
(script.ts lines 183–260): skip checkpointed ids before any query,
skip units with no rows, no surviving details, or an absent/excluded
tenant; otherwise enqueue and flush at the threshold. -/
def processUnit (store : Store) (data : PgData) (st : RunState)
    (evaluationId : String) : RunState :=
  if evaluationId ∈ st.processed then
    { st with skipped := st.skipped + 1 }
  else
    let details := data.details evaluationId
    if details = [] then { st with skipped := st.skipped + 1 }
    else
      let scoreDetails := (details.map mkScoreDetail).filter keepDetail
      if scoreDetails = [] then { st with skipped := st.skipped + 1 }
      else
        let externalClientId := resolveClient (data.ev evaluationId)
        if externalClientId = "" ∨ externalClientId = EXCLUDED_CLIENT_ID then
          { st with skipped := st.skipped + 1 }
        else
          let st1 := queueUpdate st ("contact_evaluation__" ++ externalClientId)
                       evaluationId scoreDetails
          let st2 := { st1 with processedCount := st1.processedCount + 1 }
          if BULK_FLUSH_SIZE ≤ st2.bulkCount then
            flushAndReconcile store "periodic" "bulk-periodic" st2
          else st2

/-- The per-unit loop with the `MAX_REQUESTS` early stop
(script.ts lines 177–261). -/
def runLoop (store : Store) (data : PgData) :
    List String → RunState → RunState
  | [], st => st
  | evId :: rest, st =>
    if MAX_REQUESTS ≤ st.processedCount then st
    else runLoop store data rest (processUnit store data st evId)

/-- Fresh driver state at the top of a run. -/
def initialState (processed0 : List String) (fs0 : FS) : RunState :=
  { processed := processed0, fs := fs0, failLog := [], bulkOps := [],
    bulkCount := 0, pendingIds := [], success := 0, failed := 0,
    skipped := 0, processedCount := 0, log := [] }

/-- `backfillScoreDetailsLocal` (script.ts lines 156–295) given the
already-loaded Checkpoint Set: the per-unit loop followed by the final
flush and its bookkeeping. -/
def backfillRun (store : Store) (data : PgData) (evaluationIds : List String)
    (processed0 : List String) (fs0 : FS) : RunState :=
  flushAndReconcile store "final" "bulk-final"
    (runLoop store data evaluationIds (initialState processed0 fs0))

/-- The full entry point: load the Checkpoint Set from the progress file,
then run. -/
def backfillScoreDetailsLocal (store : Store) (data : PgData)
    (evaluationIds : List String) (fs0 : FS) : RunState :=
  backfillRun store data evaluationIds (loadProgress fs0) fs0

/-! ## The streaming-cursor variant (part_000) -/

/-- One row of the streaming cursor query (part_000 lines 151–167). -/
structure StreamRow where
  evaluation_id : String
  category_id : String
  score : Rat
  justification : Option String
  phrases : Option (List String)
  category_slug : Option String
  category_name : Option String
  external_client_id : Option String
deriving DecidableEq

/-- The detail-row content carried by a streaming row. -/
def StreamRow.toDetailRow (r : StreamRow) : DetailRow :=
  { category_id := r.category_id
    score := r.score
    justification := r.justification
    phrases := r.phrases
    category_slug := r.category_slug
    category_name := r.category_name }

/-- The pushed detail object (part_000 lines 200–207): identical field
mapping to the point-query variant, with no emptiness filter. -/
def mkStreamDetail (r : StreamRow) : ScoreDetailOut :=
  mkScoreDetail r.toDetailRow

/-- One entry of the `grouped` record. -/
structure GroupEntry where
  clientId : String
  details : List ScoreDetailOut
deriving DecidableEq

/-- Upsert into the `grouped` JS object (insertion-ordered keys): an
existing entry keeps its original `clientId` and appends the detail. -/
def addRowToGroups (groups : List (String × GroupEntry)) (evId clientId : String)
    (d : ScoreDetailOut) : List (String × GroupEntry) :=
  match groups with
  | [] => [(evId, { clientId := clientId, details := [d] })]
  | (k, entry) :: rest =>
    if k = evId then (k, { entry with details := entry.details ++ [d] }) :: rest
    else (k, entry) :: addRowToGroups rest evId clientId d

/-- One iteration of the row loop (part_000 lines 185–208): skip
checkpointed ids and rows with an absent/excluded tenant, otherwise add
the row's detail to its unit's group. -/
def buildGroupsStep (processed : List String)
    (acc : List (String × GroupEntry) × Nat) (row : StreamRow) :
    List (String × GroupEntry) × Nat :=
  if row.evaluation_id ∈ processed then (acc.1, acc.2 + 1)
  else
    let externalClientId := jsToLower ((row.external_client_id).getD "")
    if externalClientId = "" ∨ externalClientId = EXCLUDED_CLIENT_ID then
      (acc.1, acc.2 + 1)
    else
      (addRowToGroups acc.1 row.evaluation_id externalClientId (mkStreamDetail row),
       acc.2)

/-- The grouping pass over one fetched batch of rows (part_000 lines
183–208), returning the groups and the skip count. -/
def buildGroups (processed : List String) (rows : List StreamRow) :
    List (String × GroupEntry) × Nat :=
  rows.foldl (buildGroupsStep processed) ([], 0)

/-- `flushBulk` of part_000 (lines 78–129): as in the point-query
variant, except `fail` is `failedIds.length` in the success case. -/
def flushBulkStream (store : Store) (reason : String) (st : RunState) :
    FlushResult × RunState :=
  if st.bulkOps = [] then
    ({ ok := 0, fail := 0, succeededIds := [], failedIds := [] }, st)
  else
    match store st.bulkOps with
    | .transportError =>
      ({ ok := 0, fail := st.pendingIds.length, succeededIds := [],
         failedIds := st.pendingIds },
       { st with bulkOps := [], bulkCount := 0, pendingIds := [],
                 log := st.log ++ [(reason, st.pendingIds.length)] })
    | .success items =>
      let sf := classifyItems items st.pendingIds
      let ok := (items.filter (fun e => !e)).length
      ({ ok := ok, fail := sf.2.length, succeededIds := sf.1,
         failedIds := sf.2 },
       { st with bulkOps := [], bulkCount := 0, pendingIds := [],
                 log := st.log ++ [(reason, st.pendingIds.length)] })

/-- Post-flush bookkeeping of part_000 (lines 216–221 and 226–231):
every succeeded id is added unconditionally and the file is saved
whenever any id succeeded. -/
def reconcileStream (reason : String) (r : FlushResult) (st : RunState) : RunState :=
  let processed2 := r.succeededIds.foldl insertUnique st.processed
  { st with
    success := st.success + r.ok
    failed := st.failed + r.fail
    processed := processed2
    fs := if r.succeededIds = [] then st.fs else saveProgress st.fs processed2
    failLog := if r.failedIds = [] then st.failLog
               else appendFailed st.failLog r.failedIds reason }

/-- The enqueue loop over the grouped units (part_000 lines 210–223). -/
def enqueueGroups (store : Store) :
    List (String × GroupEntry) → RunState → RunState
  | [], st => st
  | (evId, g) :: rest, st =>
    if g.details = [] then enqueueGroups store rest st
    else
      let st1 := queueUpdate st ("contact_evaluation___" ++ g.clientId) evId g.details
      let st2 :=
        if STREAM_BULK_FLUSH_SIZE ≤ st1.bulkCount then
          let rs := flushBulkStream store "periodic" st1
          reconcileStream "bulk-periodic" rs.1 rs.2
        else st1
      enqueueGroups store rest st2

/-- Processing of one fetched cursor batch in the streaming variant
(part_000 lines 181–224): group the rows, then enqueue the groups. -/
def streamProcessBatch (store : Store) (st : RunState)
    (rows : List StreamRow) : RunState :=
  let gs := buildGroups st.processed rows
  enqueueGroups store gs.1 { st with skipped := st.skipped + gs.2 }

/-! ## Predicates used in the claim statements -/

/-- A detail row all of whose optional fields are absent (SQL NULL, or the
empty string / empty array, which the transform also treats as absent). -/
def EmptyRow (d : DetailRow) : Prop :=
  (d.category_slug = none ∨ d.category_slug = some "") ∧
  (d.category_name = none ∨ d.category_name = some "") ∧
  (d.justification = none ∨ d.justification = some "") ∧
  (d.phrases = none ∨ d.phrases = some [])

/-- A unit that passes every eligibility check of the point-query
variant: it has detail rows, at least one survives the filter, and its
tenant resolves to a non-empty, non-excluded identifier. -/
def EligibleUnit (data : PgData) (id : String) : Prop :=
  data.details id ≠ [] ∧
  ((data.details id).map mkScoreDetail).filter keepDetail ≠ [] ∧
  resolveClient (data.ev id) ≠ "" ∧
  resolveClient (data.ev id) ≠ EXCLUDED_CLIENT_ID

/-- A unit that has detail rows but none survives the filter. -/
def EmptyDetailsUnit (data : PgData) (id : String) : Prop :=
  data.details id ≠ [] ∧ ((data.details id).map mkScoreDetail).filter keepDetail = []

/-- A unit the point-query variant skips for a data-determined reason:
no rows, no surviving details, or an absent/excluded tenant. -/
def Ineligible (data : PgData) (id : String) : Prop :=
  data.details id = [] ∨
  ((data.details id).map mkScoreDetail).filter keepDetail = [] ∨
  resolveClient (data.ev id) = "" ∨
  resolveClient (data.ev id) = EXCLUDED_CLIENT_ID

/-- A streaming row whose tenant is absent or excluded (part_000 lines
192–196). -/
def BadTenantRow (r : StreamRow) : Prop :=
  jsToLower ((r.external_client_id).getD "") = "" ∨
  jsToLower ((r.external_client_id).getD "") = EXCLUDED_CLIENT_ID

/-- A store that returns one outcome per submitted operation on every
request-level success (the documented bulk-API shape). -/
def WFStore (store : Store) : Prop :=
  ∀ ops items, store ops = BulkResponse.success items → items.length = ops.length

/-! ## Concrete demonstration inputs -/

/-- An empty filesystem: no progress file, no temp file. -/
def fsEmpty : FS := { tmpFile := none, progressFile := none }

/-- A store that accepts every request and reports every item ok. -/
def okStore : Store := fun ops => BulkResponse.success (ops.map fun _ => false)

/-- A store whose every submission fails at the transport level. -/
def errStore : Store := fun _ => BulkResponse.transportError

/-- A detail row that survives the filter. -/
def goodRow : DetailRow :=
  { category_id := "cat1", score := (7 : Rat)/2, justification := some "because",
    phrases := none, category_slug := some "slug-a", category_name := none }

/-- A detail row all of whose optional fields are empty. -/
def emptyRow : DetailRow :=
  { category_id := "cat1", score := 3, justification := none,
    phrases := some [], category_slug := none, category_name := none }

/-- A tenant row resolving to the external id "Tenant1". -/
def evGood : EvRow :=
  { client_external_id := some "Tenant1", contact_client_external_id := none }

/-! ## C9 — score rounding -/

/-- C9: the output score is the stored numeric score rounded with
`Math.round` semantics — `jsRound q = ⌊q + 1/2⌋` — which is
nearest-integer rounding with halves rounding up: 3.5 maps to 4,
3.49 maps to 3, the result is always within 1/2 of the input, and an
exact half `n + 1/2` rounds up to `n + 1`. -/
theorem c9_score_rounding :
    (∀ d : DetailRow, (mkScoreDetail d).score = jsRound d.score) ∧
    jsRound ((7 : Rat)/2) = 4 ∧ jsRound ((349 : Rat)/100) = 3 ∧
    (∀ q : Rat, |(jsRound q : Rat) - q| ≤ 1/2) ∧
    (∀ n : Int, jsRound ((n : Rat) + 1/2) = n + 1) := by
  refine ⟨fun d => rfl, by norm_num [jsRound], by norm_num [jsRound],
    fun q => ?_, fun n => ?_⟩
  · rw [abs_le]
    have h1 := Int.floor_le (q + 1/2)
    have h2 := Int.lt_floor_add_one (q + 1/2)
    unfold jsRound
    constructor <;> [linarith; linarith]
  · unfold jsRound
    have h : (n : Rat) + 1/2 + 1/2 = ((n + 1 : Int) : Rat) := by push_cast; ring
    rw [h, Int.floor_intCast]

/-! ## C3 — filtering of empty ScoreDetails -/

/-- C3 (amended): in the point-query variant, a ScoreDetail whose slug,
name and justification are absent and whose phrase list is empty is
dropped by the filter, and a unit all of whose detail rows are empty is
skipped without enqueueing anything.  (The streaming variant applies no
such filter — see the counterexample.) -/
theorem c3_filtering_amended :
    (∀ d : DetailRow, EmptyRow d → keepDetail (mkScoreDetail d) = false) ∧
    (∀ (store : Store) (data : PgData) (st : RunState) (u : String),
      (∀ d ∈ data.details u, EmptyRow d) →
      processUnit store data st u = { st with skipped := st.skipped + 1 }) := by
  have hdrop : ∀ d : DetailRow, EmptyRow d → keepDetail (mkScoreDetail d) = false := by
    rintro d ⟨hs, hn, hj, hp⟩
    rcases hs with hs | hs <;> rcases hn with hn | hn <;> rcases hj with hj | hj <;>
      rcases hp with hp | hp <;>
      simp [keepDetail, mkScoreDetail, strOrUndef, phrasesOrUndef, jsTruthyStr,
        jsTruthyPhrases, hs, hn, hj, hp]
  refine ⟨hdrop, fun store data st u hall => ?_⟩
  by_cases hmem : u ∈ st.processed
  · simp [processUnit, hmem]
  · by_cases hdet : data.details u = []
    · simp [processUnit, hmem, hdet]
    · have hfil : ((data.details u).map mkScoreDetail).filter keepDetail = [] := by
        rw [List.filter_eq_nil_iff]
        intro x hx
        rcases List.mem_map.mp hx with ⟨d, hd, rfl⟩
        simp [hdrop d (hall d hd)]
      simp [processUnit, hmem, hdet, hfil]

/-- A streaming row whose detail fields are all empty but whose tenant
is valid. -/
def c3Row : StreamRow :=
  { evaluation_id := "ev1", category_id := "cat1", score := 3,
    justification := none, phrases := some [], category_slug := none,
    category_name := none, external_client_id := some "T1" }

/-- C3 counterexample: in the streaming-cursor variant an all-empty
ScoreDetail is NOT excluded — the unit is enqueued with the empty detail
in its payload, so the claim's "holds in both variants" is false. -/
theorem c3_counterexample :
    EmptyRow c3Row.toDetailRow ∧
    (streamProcessBatch okStore (initialState [] fsEmpty) [c3Row]).pendingIds = ["ev1"] ∧
    (streamProcessBatch okStore (initialState [] fsEmpty) [c3Row]).bulkOps =
      [{ indexName := "contact_evaluation___t1", id := "ev1",
         doc := [mkStreamDetail c3Row] }] :=
  ⟨⟨Or.inl rfl, Or.inl rfl, Or.inl rfl, Or.inr rfl⟩, by decide, rfl⟩

/-- Data for the C3 witness: one unit with a single all-empty detail row
and a valid tenant. -/
def c3Data : PgData := { details := fun _ => [emptyRow], ev := fun _ => some evGood }

/-- C3 witness: the amended theorem applied at a concrete all-empty unit. -/
theorem c3_witness :
    processUnit okStore c3Data (initialState [] fsEmpty) "ev1" =
      { (initialState [] fsEmpty) with
          skipped := (initialState [] fsEmpty).skipped + 1 } :=
  c3_filtering_amended.2 okStore c3Data (initialState [] fsEmpty) "ev1"
    (by
      intro d hd
      have hde : d = emptyRow := by simpa [c3Data] using hd
      subst hde
      exact ⟨Or.inl rfl, Or.inl rfl, Or.inl rfl, Or.inr rfl⟩)

/-! ## C7 — tenant exclusion -/

/-- A key of the upserted group list is an old key or the inserted one. -/
lemma mem_map_fst_addRowToGroups {gs : List (String × GroupEntry)}
    {evId c x : String} {d : ScoreDetailOut}
    (hx : x ∈ (addRowToGroups gs evId c d).map Prod.fst) :
    x ∈ gs.map Prod.fst ∨ x = evId := by
  induction gs with
  | nil => simpa [addRowToGroups] using hx
  | cons p rest ih =>
    obtain ⟨k, entry⟩ := p
    by_cases hk : k = evId
    · simp only [addRowToGroups, if_pos hk, List.map_cons, List.mem_cons] at hx
      rcases hx with hx | hx
      · exact Or.inr (hx.trans hk)
      · exact Or.inl (by simp [hx])
    · simp only [addRowToGroups, if_neg hk, List.map_cons, List.mem_cons] at hx
      rcases hx with hx | hx
      · exact Or.inl (by simp [hx])
      · rcases ih hx with h | h
        · exact Or.inl (by simp [h])
        · exact Or.inr h

/-- If every row of unit `u` has an absent/excluded tenant, `u` never
becomes a key of the grouped record. -/
lemma buildGroups_keys_bad {u : String} :
    ∀ (rows : List StreamRow) (processed : List String)
      (acc : List (String × GroupEntry) × Nat),
      (∀ r ∈ rows, r.evaluation_id = u → BadTenantRow r) →
      u ∉ acc.1.map Prod.fst →
      u ∉ (rows.foldl (buildGroupsStep processed) acc).1.map Prod.fst := by
  intro rows
  induction rows with
  | nil => intro processed acc _ hacc; simpa using hacc
  | cons r rest ih =>
    intro processed acc hall hacc
    simp only [List.foldl_cons]
    refine ih processed _ (fun r' hr' h => hall r' (List.mem_cons_of_mem _ hr') h) ?_
    unfold buildGroupsStep
    by_cases h1 : r.evaluation_id ∈ processed
    · simpa [h1] using hacc
    · by_cases h2 : jsToLower ((r.external_client_id).getD "") = "" ∨
          jsToLower ((r.external_client_id).getD "") = EXCLUDED_CLIENT_ID
      · simpa [h1, h2] using hacc
      · simp only [if_neg h1, if_neg h2]
        intro hmem
        rcases mem_map_fst_addRowToGroups hmem with h | h
        · exact hacc h
        · exact h2 (hall r (List.mem_cons_self _ _) h.symm)

/-- The pending ids after `reconcileStream` are unchanged. -/
lemma reconcileStream_pendingIds (reason : String) (r : FlushResult)
    (st : RunState) : (reconcileStream reason r st).pendingIds = st.pendingIds := rfl

/-- A non-empty buffer flush in the streaming variant clears the pending
ids. -/
lemma flushBulkStream_pendingIds {store : Store} {reason : String}
    {st : RunState} (h : st.bulkOps ≠ []) :
    (flushBulkStream store reason st).2.pendingIds = [] := by
  unfold flushBulkStream
  rw [if_neg h]
  cases store st.bulkOps <;> rfl

/-- Any pending id after the group-enqueue loop was pending before or is
one of the group keys. -/
lemma mem_pendingIds_enqueueGroups {store : Store} {x : String} :
    ∀ (gs : List (String × GroupEntry)) (st : RunState),
      x ∈ (enqueueGroups store gs st).pendingIds →
      x ∈ st.pendingIds ∨ x ∈ gs.map Prod.fst := by
  intro gs
  induction gs with
  | nil => intro st hx; exact Or.inl (by simpa [enqueueGroups] using hx)
  | cons p rest ih =>
    obtain ⟨evId, g⟩ := p
    intro st hx
    by_cases hd : g.details = []
    · rcases ih st (by simpa [enqueueGroups, hd] using hx) with h | h
      · exact Or.inl h
      · exact Or.inr (by simp [h])
    · rw [enqueueGroups, if_neg hd] at hx
      rcases ih _ hx with h | h
      · by_cases hf : STREAM_BULK_FLUSH_SIZE ≤
            (queueUpdate st ("contact_evaluation___" ++ g.clientId) evId g.details).bulkCount
        · rw [if_pos hf, reconcileStream_pendingIds,
            flushBulkStream_pendingIds (by simp [queueUpdate])] at h
          exact absurd h (List.not_mem_nil x)
        · rw [if_neg hf] at h
          simp only [queueUpdate, List.mem_append, List.mem_singleton] at h
          rcases h with h | h
          · exact Or.inl h
          · exact Or.inr (by simp [h])
      · exact Or.inr (by simp [h])

/-- C7: a unit whose resolved tenant identifier is empty/unresolvable or
equals the excluded sentinel after lower-casing produces no SyncTarget:
the point-query variant only bumps `skipped` (no query result is used,
nothing is enqueued), and in the streaming variant such a unit never
forms a group and never becomes a pending id. -/
theorem c7_tenant_exclusion :
    (∀ (store : Store) (data : PgData) (st : RunState) (u : String),
      (jsToLower (resolveClientRaw (data.ev u)) = "" ∨
        jsToLower (resolveClientRaw (data.ev u)) = EXCLUDED_CLIENT_ID) →
      processUnit store data st u = { st with skipped := st.skipped + 1 }) ∧
    (∀ (processed : List String) (rows : List StreamRow) (u : String),
      (∀ r ∈ rows, r.evaluation_id = u → BadTenantRow r) →
      u ∉ (buildGroups processed rows).1.map Prod.fst) ∧
    (∀ (store : Store) (st : RunState) (rows : List StreamRow) (u : String),
      (∀ r ∈ rows, r.evaluation_id = u → BadTenantRow r) →
      u ∉ st.pendingIds →
      u ∉ (streamProcessBatch store st rows).pendingIds) := by
  refine ⟨fun store data st u hbad => ?_, fun processed rows u hall => ?_,
    fun store st rows u hall hpend => ?_⟩
  · have hres : resolveClient (data.ev u) = "" ∨
        resolveClient (data.ev u) = EXCLUDED_CLIENT_ID := hbad
    by_cases h1 : u ∈ st.processed
    · simp [processUnit, h1]
    · by_cases h2 : data.details u = []
      · simp [processUnit, h1, h2]
      · by_cases h3 : ((data.details u).map mkScoreDetail).filter keepDetail = []
        · simp [processUnit, h1, h2, h3]
        · rcases hres with h | h <;> simp [processUnit, h1, h2, h3, h]
  · exact buildGroups_keys_bad rows processed ([], 0) hall (by simp)
  · intro hx
    rcases mem_pendingIds_enqueueGroups (buildGroups st.processed rows).1 _ hx with h | h
    · exact hpend h
    · exact buildGroups_keys_bad rows st.processed ([], 0) hall (by simp) h

/-- A tenant row whose external id is the excluded sentinel, upper-cased:
the exclusion must fire through the case-insensitive comparison. -/
def evExcluded : EvRow :=
  { client_external_id := some "0E57B625-FF35-11EF-8005-0EBCD8044491",
    contact_client_external_id := none }

/-- Data for the C7 witness: a unit with a valid detail row but an
excluded tenant. -/
def c7Data : PgData := { details := fun _ => [goodRow], ev := fun _ => some evExcluded }

/-- C7 witness: the theorem applied at a concrete excluded-tenant unit. -/
theorem c7_witness :
    processUnit okStore c7Data (initialState [] fsEmpty) "ev1" =
      { (initialState [] fsEmpty) with
          skipped := (initialState [] fsEmpty).skipped + 1 } :=
  c7_tenant_exclusion.1 okStore c7Data (initialState [] fsEmpty) "ev1"
    (Or.inr (by decide))

/-! ## C5 — transport failure recovery -/

/-- C5: when the bulk submission fails at the transport level, every
pending id of the batch is appended to the Failure Log, the Checkpoint
Set is not mutated and the filesystem is untouched (no re-persist), the
buffer and pending-id list are cleared, the success counter is
unchanged, and the loop keeps processing subsequent units. -/
theorem c5_transport_failure (store : Store) (data : PgData) (st : RunState)
    (fr ar : String) (hne : st.bulkOps ≠ [])
    (herr : store st.bulkOps = BulkResponse.transportError) :
    (flushAndReconcile store fr ar st).processed = st.processed ∧
    (flushAndReconcile store fr ar st).fs = st.fs ∧
    (flushAndReconcile store fr ar st).failLog
      = st.failLog ++ st.pendingIds.map (fun id => (id, ar)) ∧
    (flushAndReconcile store fr ar st).bulkOps = [] ∧
    (flushAndReconcile store fr ar st).pendingIds = [] ∧
    (flushAndReconcile store fr ar st).success = st.success ∧
    (flushAndReconcile store fr ar st).failed = st.failed + st.pendingIds.length ∧
    (∀ (u : String) (rest : List String),
      (flushAndReconcile store fr ar st).processedCount < MAX_REQUESTS →
      runLoop store data (u :: rest) (flushAndReconcile store fr ar st)
        = runLoop store data rest
            (processUnit store data (flushAndReconcile store fr ar st) u)) := by
  have hconj : (flushAndReconcile store fr ar st).processed = st.processed ∧
      (flushAndReconcile store fr ar st).fs = st.fs ∧
      (flushAndReconcile store fr ar st).failLog
        = st.failLog ++ st.pendingIds.map (fun id => (id, ar)) ∧
      (flushAndReconcile store fr ar st).bulkOps = [] ∧
      (flushAndReconcile store fr ar st).pendingIds = [] ∧
      (flushAndReconcile store fr ar st).success = st.success ∧
      (flushAndReconcile store fr ar st).failed = st.failed + st.pendingIds.length := by
    by_cases hp : st.pendingIds = [] <;>
      simp [flushAndReconcile, flushBulk, if_neg hne, herr, reconcile,
        addSucceeded, appendFailed, hp]
  refine ⟨hconj.1, hconj.2.1, hconj.2.2.1, hconj.2.2.2.1, hconj.2.2.2.2.1,
    hconj.2.2.2.2.2.1, hconj.2.2.2.2.2.2, fun u rest h => ?_⟩
  rw [runLoop, if_neg (not_le.mpr h)]

/-- State for the C5 witness: one operation queued for unit "u1". -/
def c5State : RunState :=
  queueUpdate (initialState [] fsEmpty) "contact_evaluation__tenant1" "u1"
    [mkScoreDetail goodRow]

/-- C5 witness: the theorem applied to a one-element batch against a
store that always fails at the transport level. -/
theorem c5_witness :
    (flushAndReconcile errStore "periodic" "bulk-periodic" c5State).processed
        = c5State.processed ∧
    (flushAndReconcile errStore "periodic" "bulk-periodic" c5State).failLog
        = c5State.failLog ++ c5State.pendingIds.map (fun id => (id, "bulk-periodic")) :=
  ⟨(c5_transport_failure errStore ⟨fun _ => [], fun _ => none⟩ c5State
      "periodic" "bulk-periodic" (by decide) rfl).1,
   (c5_transport_failure errStore ⟨fun _ => [], fun _ => none⟩ c5State
      "periodic" "bulk-periodic" (by decide) rfl).2.2.1⟩

/-! ## C4 — partial batch failure bookkeeping -/

/-- C4: for a flush of 5 pending operations whose per-item outcomes
carry errors exactly at positions 2 and 4 (0-based), the ids are matched
positionally: the 3 ids at the non-error positions become the
`succeededIds`, are appended to the Checkpoint Set and immediately
persisted, and the 2 ids at the error positions become the `failedIds`
and are appended to the Failure Log. -/
theorem c4_partial_batch (store : Store) (st : RunState) (a b c d e : String)
    (hpend : st.pendingIds = [a, b, c, d, e])
    (hne : st.bulkOps ≠ [])
    (hres : store st.bulkOps = BulkResponse.success [false, false, true, false, true])
    (hnd : [a, b, c, d, e].Nodup)
    (hfresh : ∀ x ∈ [a, b, c, d, e], x ∉ st.processed) :
    (flushBulk store "periodic" st).1.succeededIds = [a, b, d] ∧
    (flushBulk store "periodic" st).1.failedIds = [c, e] ∧
    (flushAndReconcile store "periodic" "bulk-periodic" st).processed
      = st.processed ++ [a, b, d] ∧
    (flushAndReconcile store "periodic" "bulk-periodic" st).fs.progressFile
      = some (st.processed ++ [a, b, d]) ∧
    (flushAndReconcile store "periodic" "bulk-periodic" st).failLog
      = st.failLog ++ [(c, "bulk-periodic"), (e, "bulk-periodic")] ∧
    (flushAndReconcile store "periodic" "bulk-periodic" st).success = st.success + 3 ∧
    (flushAndReconcile store "periodic" "bulk-periodic" st).failed = st.failed + 2 ∧
    (flushAndReconcile store "periodic" "bulk-periodic" st).pendingIds = [] ∧
    (flushAndReconcile store "periodic" "bulk-periodic" st).bulkOps = [] := by
  simp only [List.nodup_cons, List.mem_cons, List.mem_singleton, not_or,
    List.not_mem_nil, not_false_eq_true, and_true, List.nodup_nil] at hnd
  obtain ⟨⟨hab, hac, had, hae⟩, ⟨hbc, hbd, hbe⟩, ⟨hcd, hce⟩, hde⟩ := hnd
  have ha : a ∉ st.processed := hfresh a (by simp)
  have hb : b ∉ st.processed := hfresh b (by simp)
  have hd : d ∉ st.processed := hfresh d (by simp)
  have hclass : classifyItems [false, false, true, false, true] [a, b, c, d, e]
      = ([a, b, d], [c, e]) := by simp [classifyItems]
  have hfb : flushBulk store "periodic" st =
      ({ ok := 3, fail := 2, succeededIds := [a, b, d], failedIds := [c, e] },
       { st with bulkOps := [], bulkCount := 0, pendingIds := [],
                 log := st.log ++ [("periodic", 5)] }) := by
    simp [flushBulk, if_neg hne, hres, hpend, hclass]
  have hadd : addSucceeded [a, b, d] st.processed = (st.processed ++ [a, b, d], 3) := by
    simp [addSucceeded, ha, hb, hd, List.mem_append, Ne.symm hab, Ne.symm hbd,
      Ne.symm had, Ne.symm hbd]
  have hfar : flushAndReconcile store "periodic" "bulk-periodic" st =
      { st with processed := st.processed ++ [a, b, d],
                fs := { tmpFile := none, progressFile := some (st.processed ++ [a, b, d]) },
                failLog := st.failLog ++ [(c, "bulk-periodic"), (e, "bulk-periodic")],
                bulkOps := [], bulkCount := 0, pendingIds := [],
                success := st.success + 3, failed := st.failed + 2,
                log := st.log ++ [("periodic", 5)] } := by
    rw [flushAndReconcile, hfb]
    simp [reconcile, hadd, appendFailed, saveProgress, fsWriteTmp, fsRename]
  rw [hfb, hfar]
  refine ⟨rfl, rfl, rfl, rfl, rfl, rfl, rfl, rfl, rfl⟩

/-- A store reporting item errors exactly at positions 2 and 4. -/
def c4Store : Store := fun _ => BulkResponse.success [false, false, true, false, true]

/-- State for the C4 witness: five queued operations for units u1–u5. -/
def c4State : RunState :=
  queueUpdate (queueUpdate (queueUpdate (queueUpdate (queueUpdate
    (initialState [] fsEmpty) "i" "u1" []) "i" "u2" []) "i" "u3" []) "i" "u4" [])
    "i" "u5" []

/-- C4 witness: the theorem applied to a concrete batch of five. -/
theorem c4_witness :
    (flushAndReconcile c4Store "periodic" "bulk-periodic" c4State).processed
        = c4State.processed ++ ["u1", "u2", "u4"] ∧
    (flushAndReconcile c4Store "periodic" "bulk-periodic" c4State).failLog
        = c4State.failLog ++ [("u3", "bulk-periodic"), ("u5", "bulk-periodic")] ∧
    (flushAndReconcile c4Store "periodic" "bulk-periodic" c4State).fs.progressFile
        = some (c4State.processed ++ ["u1", "u2", "u4"]) := by
  have h := c4_partial_batch c4Store c4State "u1" "u2" "u3" "u4" "u5"
    (by decide) (by decide) rfl (by decide) (by decide)
  exact ⟨h.2.2.1, h.2.2.2.2.1, h.2.2.2.1⟩

/-! ## C10 — ids lost on an outcome-count mismatch -/

/-- Every id classified (as succeeded or failed) comes from the first
`items.length` pending ids. -/
lemma mem_classifyItems :
    ∀ (items : List Bool) (pending : List String) (x : String),
      (x ∈ (classifyItems items pending).1 ∨ x ∈ (classifyItems items pending).2) →
      x ∈ pending.take items.length := by
  intro items
  induction items with
  | nil => intro pending x hx; simp [classifyItems] at hx
  | cons e items ih =>
    intro pending x hx
    cases pending with
    | nil =>
      have h := ih [] x (by simpa [classifyItems] using hx)
      simp at h
    | cons id rest =>
      rw [List.length_cons, List.take_succ_cons]
      cases e <;> simp only [classifyItems, if_true, if_false,
          Bool.false_eq_true, List.mem_cons] at hx
      · rcases hx with (hx | hx) | hx
        · simp [hx]
        · exact List.mem_cons_of_mem _ (ih rest x (Or.inl hx))
        · exact List.mem_cons_of_mem _ (ih rest x (Or.inr hx))
      · rcases hx with hx | (hx | hx)
        · exact List.mem_cons_of_mem _ (ih rest x (Or.inl hx))
        · simp [hx]
        · exact List.mem_cons_of_mem _ (ih rest x (Or.inr hx))

/-- Membership in the checkpoint list after `addSucceeded`. -/
lemma mem_addSucceeded :
    ∀ (ids processed : List String) (x : String),
      x ∈ (addSucceeded ids processed).1 → x ∈ processed ∨ x ∈ ids := by
  intro ids
  induction ids with
  | nil => intro p x hx; exact Or.inl (by simpa [addSucceeded] using hx)
  | cons id rest ih =>
    intro p x hx
    by_cases hmem : id ∈ p
    · rcases ih p x (by simpa [addSucceeded, hmem] using hx) with h | h
      · exact Or.inl h
      · exact Or.inr (List.mem_cons_of_mem _ h)
    · rcases ih (p ++ [id]) x (by simpa [addSucceeded, hmem] using hx) with h | h
      · rcases List.mem_append.mp h with h | h
        · exact Or.inl h
        · exact Or.inr (by simp [List.mem_singleton.mp h])
      · exact Or.inr (List.mem_cons_of_mem _ h)

/-- C10: when a request-level-successful response carries fewer per-item
outcomes than there are pending ids, each pending id beyond the outcome
count is classified neither succeeded nor failed: it is not added to the
Checkpoint Set, not appended to the Failure Log, and the buffer and
pending-id list are still cleared — the id leaves the run with no
recorded outcome. -/
theorem c10_mismatch_lost_ids (store : Store) (st : RunState)
    (items : List Bool) (fr ar : String) (x : String)
    (hnd : st.pendingIds.Nodup) (hne : st.bulkOps ≠ [])
    (hres : store st.bulkOps = BulkResponse.success items)
    (hx : x ∈ st.pendingIds.drop items.length) :
    x ∉ (flushBulk store fr st).1.succeededIds ∧
    x ∉ (flushBulk store fr st).1.failedIds ∧
    (x ∉ st.processed → x ∉ (flushAndReconcile store fr ar st).processed) ∧
    (∀ reason, (x, reason) ∉ st.failLog →
      (x, reason) ∉ (flushAndReconcile store fr ar st).failLog) ∧
    (flushAndReconcile store fr ar st).bulkOps = [] ∧
    (flushAndReconcile store fr ar st).pendingIds = [] := by
  have hnottake : x ∉ st.pendingIds.take items.length := fun hmem =>
    (List.disjoint_take_drop hnd (le_refl _)) hmem hx
  have hsucc : x ∉ (classifyItems items st.pendingIds).1 := fun h =>
    hnottake (mem_classifyItems items st.pendingIds x (Or.inl h))
  have hfail : x ∉ (classifyItems items st.pendingIds).2 := fun h =>
    hnottake (mem_classifyItems items st.pendingIds x (Or.inr h))
  have hfb : flushBulk store fr st =
      ({ ok := (items.filter (fun e => !e)).length,
         fail := items.length - (items.filter (fun e => !e)).length,
         succeededIds := (classifyItems items st.pendingIds).1,
         failedIds := (classifyItems items st.pendingIds).2 },
       { st with bulkOps := [], bulkCount := 0, pendingIds := [],
                 log := st.log ++ [(fr, st.pendingIds.length)] }) := by
    simp [flushBulk, if_neg hne, hres]
  refine ⟨by rw [hfb]; exact hsucc, by rw [hfb]; exact hfail, ?_, ?_, ?_, ?_⟩
  · intro hxp hmem
    rw [flushAndReconcile, hfb] at hmem
    simp only [reconcile] at hmem
    rcases mem_addSucceeded _ _ _ hmem with h | h
    · exact hxp h
    · exact hsucc h
  · intro reason hlog hmem
    rw [flushAndReconcile, hfb] at hmem
    by_cases hf : (classifyItems items st.pendingIds).2 = []
    · simp only [reconcile, hf, if_pos] at hmem
      exact hlog hmem
    · simp only [reconcile, if_neg hf, appendFailed, List.mem_append,
        List.mem_map] at hmem
      rcases hmem with h | ⟨y, hy, hxy⟩
      · exact hlog h
      · cases hxy
        exact hfail hy
  · rw [flushAndReconcile, hfb]; rfl
  · rw [flushAndReconcile, hfb]; rfl

/-- A store whose response carries a single ok item regardless of the
request size. -/
def shortStore : Store := fun _ => BulkResponse.success [false]

/-- State for the C10 witness: two queued operations but the store will
answer with one outcome. -/
def c10State : RunState :=
  queueUpdate (queueUpdate (initialState [] fsEmpty) "i" "u1" []) "i" "u2" []

/-- C10 witness: with pending ids [u1, u2] and a one-item response, u2 is
neither checkpointed nor failure-logged, and the buffers are cleared. -/
theorem c10_witness :
    ("u2" ∉ (flushAndReconcile shortStore "periodic" "bulk-periodic" c10State).processed) ∧
    (("u2", "bulk-periodic") ∉
      (flushAndReconcile shortStore "periodic" "bulk-periodic" c10State).failLog) ∧
    (flushAndReconcile shortStore "periodic" "bulk-periodic" c10State).pendingIds = [] := by
  have h := c10_mismatch_lost_ids shortStore c10State [false] "periodic"
    "bulk-periodic" "u2" (by decide) (by decide) rfl (by decide)
  exact ⟨h.2.2.1 (by decide), h.2.2.2.1 "bulk-periodic" (by decide), h.2.2.2.2.2⟩

/-! ## C8 — point-query vs streaming-cursor variant -/

/-- Folding a run of rows that all belong to one already-grouped unit
with a valid (non-empty, non-excluded) tenant only appends their details
to that unit's group. -/
lemma buildGroups_single_unit (processed : List String) (t evId : String)
    (ht1 : t ≠ "") (ht2 : t ≠ EXCLUDED_CLIENT_ID) (hproc : evId ∉ processed) :
    ∀ (rows : List StreamRow) (entry : GroupEntry) (n : Nat),
      (∀ r ∈ rows, r.evaluation_id = evId) →
      (∀ r ∈ rows, jsToLower ((r.external_client_id).getD "") = t) →
      rows.foldl (buildGroupsStep processed) ([(evId, entry)], n)
        = ([(evId, { entry with
              details := entry.details ++ rows.map mkStreamDetail })], n) := by
  intro rows
  induction rows with
  | nil => intro entry n _ _; simp
  | cons r rest ih =>
    intro entry n hid hcl
    have hrid : r.evaluation_id = evId := hid r (List.mem_cons_self _ _)
    have hrcl : jsToLower ((r.external_client_id).getD "") = t :=
      hcl r (List.mem_cons_self _ _)
    have hstep : buildGroupsStep processed ([(evId, entry)], n) r
        = ([(evId, { entry with
              details := entry.details ++ [mkStreamDetail r] })], n) := by
      unfold buildGroupsStep
      rw [hrid, if_neg hproc, hrcl, if_neg (by simp [ht1, ht2])]
      simp [addRowToGroups]
    rw [List.foldl_cons, hstep,
      ih _ n (fun r' h => hid r' (List.mem_cons_of_mem _ h))
        (fun r' h => hcl r' (List.mem_cons_of_mem _ h))]
    simp

/-- C8 (amended): for a unit built from the same underlying rows (every
detail row surviving the filter, tenant resolving to the same non-empty,
non-excluded identifier), the two variants enqueue operations with the
same document identifier and the same ScoreDetails payload, but the
target index names differ: the point-query variant uses the prefix
`contact_evaluation__` and the streaming variant `contact_evaluation___`
(one extra underscore). -/
theorem c8_variant_equivalence_amended (store : Store) (data : PgData)
    (st : RunState) (srows : List StreamRow) (evId : String)
    (hrows : srows ≠ [])
    (hid : ∀ r ∈ srows, r.evaluation_id = evId)
    (hcl : ∀ r ∈ srows, jsToLower ((r.external_client_id).getD "")
            = resolveClient (data.ev evId))
    (hkeep : ∀ r ∈ srows, keepDetail (mkStreamDetail r) = true)
    (hdet : data.details evId = srows.map StreamRow.toDetailRow)
    (ht1 : resolveClient (data.ev evId) ≠ "")
    (ht2 : resolveClient (data.ev evId) ≠ EXCLUDED_CLIENT_ID)
    (hb : st.bulkOps = []) (hp : st.pendingIds = []) (hc : st.bulkCount = 0)
    (hproc : evId ∉ st.processed) :
    (processUnit store data st evId).bulkOps =
      [{ indexName := "contact_evaluation__" ++ resolveClient (data.ev evId),
         id := evId, doc := srows.map mkStreamDetail }] ∧
    (streamProcessBatch store st srows).bulkOps =
      [{ indexName := "contact_evaluation___" ++ resolveClient (data.ev evId),
         id := evId, doc := srows.map mkStreamDetail }] := by
  have hmapmap : (data.details evId).map mkScoreDetail = srows.map mkStreamDetail := by
    rw [hdet, List.map_map]; rfl
  have hfilter : ((data.details evId).map mkScoreDetail).filter keepDetail
      = srows.map mkStreamDetail := by
    rw [hmapmap, List.filter_eq_self.mpr]
    intro x hxm
    rcases List.mem_map.mp hxm with ⟨r, hr, rfl⟩
    exact hkeep r hr
  have hdetne : data.details evId ≠ [] := by
    rw [hdet]
    intro h
    exact hrows (List.map_eq_nil_iff.mp h)
  have hfilne : ((data.details evId).map mkScoreDetail).filter keepDetail ≠ [] := by
    rw [hfilter]
    intro h
    exact hrows (List.map_eq_nil_iff.mp h)
  constructor
  · simp [processUnit, hproc, hdetne, hfilne, ht1, ht2, hfilter, queueUpdate,
      hb, hc, BULK_FLUSH_SIZE, hrows]
  · have hbg : buildGroups st.processed srows
        = ([(evId, { clientId := resolveClient (data.ev evId),
                     details := srows.map mkStreamDetail })], 0) := by
      cases srows with
      | nil => exact absurd rfl hrows
      | cons r rest =>
        have hrid : r.evaluation_id = evId := hid r (List.mem_cons_self _ _)
        have hrcl : jsToLower ((r.external_client_id).getD "")
            = resolveClient (data.ev evId) := hcl r (List.mem_cons_self _ _)
        have hr0 : buildGroupsStep st.processed ([], 0) r
            = ([(evId, { clientId := resolveClient (data.ev evId),
                         details := [mkStreamDetail r] })], 0) := by
          unfold buildGroupsStep
          rw [hrid, if_neg hproc, hrcl, if_neg (by simp [ht1, ht2])]
          simp [addRowToGroups]
        rw [buildGroups, List.foldl_cons, hr0,
          buildGroups_single_unit st.processed (resolveClient (data.ev evId)) evId
            ht1 ht2 hproc rest _ 0
            (fun r' h => hid r' (List.mem_cons_of_mem _ h))
            (fun r' h => hcl r' (List.mem_cons_of_mem _ h))]
        simp
    rw [streamProcessBatch, hbg]
    simp [enqueueGroups, queueUpdate, hb, hp, hc, STREAM_BULK_FLUSH_SIZE,
      List.map_eq_nil_iff, hrows]

/-- A streaming row with one surviving detail and tenant "T1". -/
def c8Row : StreamRow :=
  { evaluation_id := "ev1", category_id := "cat1", score := 3,
    justification := some "why", phrases := none, category_slug := none,
    category_name := none, external_client_id := some "T1" }

/-- The same unit as seen by the point-query variant: the same detail
row, and a tenant row resolving to the same external id "T1". -/
def c8Data : PgData :=
  { details := fun _ => [c8Row.toDetailRow],
    ev := fun _ => some { client_external_id := some "T1",
                          contact_client_external_id := none } }

/-- C8 counterexample: from the same underlying rows the two variants
enqueue the same document id and the same payload, but different target
index names (`contact_evaluation__t1` vs `contact_evaluation___t1`), so
the SyncTargets are not the same. -/
theorem c8_counterexample :
    (processUnit okStore c8Data (initialState [] fsEmpty) "ev1").bulkOps.map BulkOp.id
      = (streamProcessBatch okStore (initialState [] fsEmpty) [c8Row]).bulkOps.map BulkOp.id ∧
    (processUnit okStore c8Data (initialState [] fsEmpty) "ev1").bulkOps.map BulkOp.doc
      = (streamProcessBatch okStore (initialState [] fsEmpty) [c8Row]).bulkOps.map BulkOp.doc ∧
    (processUnit okStore c8Data (initialState [] fsEmpty) "ev1").bulkOps.map BulkOp.indexName
      = ["contact_evaluation__t1"] ∧
    (streamProcessBatch okStore (initialState [] fsEmpty) [c8Row]).bulkOps.map BulkOp.indexName
      = ["contact_evaluation___t1"] ∧
    (processUnit okStore c8Data (initialState [] fsEmpty) "ev1").bulkOps.map BulkOp.indexName
      ≠ (streamProcessBatch okStore (initialState [] fsEmpty) [c8Row]).bulkOps.map BulkOp.indexName :=
  ⟨by decide, rfl, by decide, by decide, by decide⟩

/-- C8 witness: the amended theorem applied to the concrete unit. -/
theorem c8_witness :
    (processUnit okStore c8Data (initialState [] fsEmpty) "ev1").bulkOps =
      [{ indexName := "contact_evaluation__" ++ resolveClient (c8Data.ev "ev1"),
         id := "ev1", doc := [c8Row].map mkStreamDetail }] ∧
    (streamProcessBatch okStore (initialState [] fsEmpty) [c8Row]).bulkOps =
      [{ indexName := "contact_evaluation___" ++ resolveClient (c8Data.ev "ev1"),
         id := "ev1", doc := [c8Row].map mkStreamDetail }] :=
  c8_variant_equivalence_amended okStore c8Data (initialState [] fsEmpty)
    [c8Row] "ev1" (by decide) (by decide) (by decide) (by decide) rfl
    (by decide) (by decide) rfl rfl rfl (by decide)

/-! ## C2 — the 7-unit end-to-end scenario -/

/-- C2 (amended): in the 7-unit scenario (A checkpointed, B–F eligible,
G with only empty ScoreDetails, threshold 3, store reporting full
success) the hard-coded `MAX_REQUESTS = 3` cap stops the run right after
the first flush: A is the only skip (G is never reached), exactly B, C
and D are staged, exactly one flush of size 3 happens, and the final
Checkpoint Set is [A, B, C, D], persisted. -/
theorem c2_scenario_amended (store : Store) (data : PgData) (fs0 : FS)
    (a b c d e f g : String)
    (hok : ∀ ops, store ops = BulkResponse.success (ops.map fun _ => false))
    (hba : b ≠ a) (hca : c ≠ a) (hda : d ≠ a)
    (hcb : c ≠ b) (hdb : d ≠ b) (hdc : d ≠ c)
    (hB : EligibleUnit data b) (hC : EligibleUnit data c) (hD : EligibleUnit data d)
    (_hE : EligibleUnit data e) (_hF : EligibleUnit data f)
    (_hG : EmptyDetailsUnit data g) :
    backfillRun store data [a, b, c, d, e, f, g] [a] fs0 =
      { processed := [a, b, c, d],
        fs := { tmpFile := none, progressFile := some [a, b, c, d] },
        failLog := [], bulkOps := [], bulkCount := 0, pendingIds := [],
        success := 3, failed := 0, skipped := 1, processedCount := 3,
        log := [("periodic", 3)] } := by
  obtain ⟨hb1, hb2, hb3, hb4⟩ := hB
  obtain ⟨hc1, hc2, hc3, hc4⟩ := hC
  obtain ⟨hd1, hd2, hd3, hd4⟩ := hD
  simp [backfillRun, runLoop, processUnit, queueUpdate, flushAndReconcile,
    flushBulk, reconcile, addSucceeded, classifyItems, initialState,
    saveProgress, fsWriteTmp, fsRename, appendFailed, BULK_FLUSH_SIZE,
    MAX_REQUESTS, hok, hba, hca, hda, hcb, hdb, hdc, hb1, hb2, hb3, hb4,
    hc1, hc2, hc3, hc4, hd1, hd2, hd3, hd4]

/-- Data for the C2 counterexample and witness: units b–f carry one
surviving detail row, unit g carries one all-empty detail row, and every
unit's tenant resolves to "tenant1". -/
def c2Data : PgData :=
  { details := fun id => if id = "g" then [emptyRow] else [goodRow],
    ev := fun _ => some evGood }

/-- C2 counterexample: a concrete instance of the claimed scenario
(B–F eligible, G empty-only, store fully successful) on which the run
does NOT produce skipped=2, two flushes of sizes 3 and 2, and a
checkpoint containing B–F — the `MAX_REQUESTS = 3` cap stops it first. -/
theorem c2_counterexample :
    EligibleUnit c2Data "b" ∧ EligibleUnit c2Data "c" ∧
    EligibleUnit c2Data "d" ∧ EligibleUnit c2Data "e" ∧
    EligibleUnit c2Data "f" ∧ EmptyDetailsUnit c2Data "g" ∧
    ¬ ((backfillRun okStore c2Data ["a", "b", "c", "d", "e", "f", "g"]
          ["a"] fsEmpty).skipped = 2 ∧
       (backfillRun okStore c2Data ["a", "b", "c", "d", "e", "f", "g"]
          ["a"] fsEmpty).log = [("periodic", 3), ("final", 2)] ∧
       ["b", "c", "d", "e", "f"] ⊆
         (backfillRun okStore c2Data ["a", "b", "c", "d", "e", "f", "g"]
            ["a"] fsEmpty).processed) :=
  ⟨⟨by decide, by decide, by decide, by decide⟩,
   ⟨by decide, by decide, by decide, by decide⟩,
   ⟨by decide, by decide, by decide, by decide⟩,
   ⟨by decide, by decide, by decide, by decide⟩,
   ⟨by decide, by decide, by decide, by decide⟩,
   ⟨by decide, by decide⟩,
   by decide⟩

/-- C2 witness: the amended theorem applied at the concrete scenario. -/
theorem c2_witness :
    backfillRun okStore c2Data ["a", "b", "c", "d", "e", "f", "g"] ["a"] fsEmpty =
      { processed := ["a", "b", "c", "d"],
        fs := { tmpFile := none, progressFile := some ["a", "b", "c", "d"] },
        failLog := [], bulkOps := [], bulkCount := 0, pendingIds := [],
        success := 3, failed := 0, skipped := 1, processedCount := 3,
        log := [("periodic", 3)] } :=
  c2_scenario_amended okStore c2Data fsEmpty "a" "b" "c" "d" "e" "f" "g"
    (fun _ => rfl) (by decide) (by decide) (by decide) (by decide) (by decide)
    (by decide)
    ⟨by decide, by decide, by decide, by decide⟩
    ⟨by decide, by decide, by decide, by decide⟩
    ⟨by decide, by decide, by decide, by decide⟩
    ⟨by decide, by decide, by decide, by decide⟩
    ⟨by decide, by decide, by decide, by decide⟩
    ⟨by decide, by decide⟩

/-! ## C6 — Checkpoint Set invariants -/

/-- The checkpoint list after `addSucceeded` keeps every old member. -/
lemma mem_addSucceeded_of_mem :
    ∀ (ids processed : List String) (x : String),
      x ∈ processed → x ∈ (addSucceeded ids processed).1 := by
  intro ids
  induction ids with
  | nil => intro p x hx; simpa [addSucceeded] using hx
  | cons id rest ih =>
    intro p x hx
    by_cases hmem : id ∈ p
    · simpa [addSucceeded, hmem] using ih p x hx
    · simpa [addSucceeded, hmem] using ih (p ++ [id]) x (by simp [hx])

/-- An id inserted by `addSucceeded` is in the result. -/
lemma mem_addSucceeded_of_mem_ids :
    ∀ (ids processed : List String) (x : String),
      x ∈ ids → x ∈ (addSucceeded ids processed).1 := by
  intro ids
  induction ids with
  | nil => intro p x hx; simp at hx
  | cons id rest ih =>
    intro p x hx
    rcases List.mem_cons.mp hx with rfl | hx
    · by_cases hmem : x ∈ p
      · simpa [addSucceeded, hmem] using mem_addSucceeded_of_mem rest p x hmem
      · simpa [addSucceeded, hmem] using
          mem_addSucceeded_of_mem rest (p ++ [x]) x (by simp)
    · by_cases hmem : id ∈ p
      · simpa [addSucceeded, hmem] using ih p x hx
      · simpa [addSucceeded, hmem] using ih (p ++ [id]) x hx

/-- `addSucceeded` adding nothing leaves the checkpoint list unchanged. -/
lemma addSucceeded_added_zero :
    ∀ (ids processed : List String),
      (addSucceeded ids processed).2 = 0 →
      (addSucceeded ids processed).1 = processed := by
  intro ids
  induction ids with
  | nil => intro p _; rfl
  | cons id rest ih =>
    intro p h
    by_cases hmem : id ∈ p
    · rw [addSucceeded, if_pos hmem] at h ⊢
      exact ih p h
    · rw [addSucceeded, if_neg hmem] at h
      simp at h

/-- The checkpoint list only grows across `flushAndReconcile`. -/
lemma mem_processed_flushAndReconcile {store : Store} {fr ar : String}
    {st : RunState} {x : String} (hx : x ∈ st.processed) :
    x ∈ (flushAndReconcile store fr ar st).processed := by
  rw [flushAndReconcile]
  have hpres : ∀ s : RunState, s.processed = st.processed →
      x ∈ (reconcile ar (flushBulk store fr st).1 s).processed := by
    intro s hs
    simp only [reconcile]
    exact mem_addSucceeded_of_mem _ _ _ (hs ▸ hx)
  apply hpres
  rw [flushBulk]
  by_cases hne : st.bulkOps = []
  · rw [if_pos hne]
  · rw [if_neg hne]
    cases store st.bulkOps <;> rfl

/-- The checkpoint list only grows across `processUnit`. -/
lemma mem_processed_processUnit {store : Store} {data : PgData}
    {st : RunState} {u x : String} (hx : x ∈ st.processed) :
    x ∈ (processUnit store data st u).processed := by
  rw [processUnit]
  by_cases h1 : u ∈ st.processed
  · rw [if_pos h1]; exact hx
  · rw [if_neg h1]
    by_cases h2 : data.details u = []
    · rw [if_pos h2]; exact hx
    · rw [if_neg h2]
      by_cases h3 : ((data.details u).map mkScoreDetail).filter keepDetail = []
      · rw [if_pos h3]; exact hx
      · rw [if_neg h3]
        by_cases h4 : resolveClient (data.ev u) = "" ∨
            resolveClient (data.ev u) = EXCLUDED_CLIENT_ID
        · rw [if_pos h4]; exact hx
        · rw [if_neg h4]
          by_cases h5 : BULK_FLUSH_SIZE ≤
              (queueUpdate st ("contact_evaluation__" ++ resolveClient (data.ev u))
                u (((data.details u).map mkScoreDetail).filter keepDetail)).bulkCount
          · rw [if_pos h5]
            exact mem_processed_flushAndReconcile hx
          · rw [if_neg h5]; exact hx

/-- The checkpoint list only grows across the per-unit loop. -/
lemma mem_processed_runLoop {store : Store} {data : PgData} :
    ∀ (ids : List String) (st : RunState) (x : String),
      x ∈ st.processed → x ∈ (runLoop store data ids st).processed := by
  intro ids
  induction ids with
  | nil => intro st x hx; exact hx
  | cons u rest ih =>
    intro st x hx
    rw [runLoop]
    by_cases hcap : MAX_REQUESTS ≤ st.processedCount
    · rw [if_pos hcap]; exact hx
    · rw [if_neg hcap]
      exact ih _ x (mem_processed_processUnit hx)

/-- C6: the Checkpoint Set only grows — no step of a run removes an id,
and every id of the loaded set is still present at the end of the run —
every persist writes the full set to the temp file and then renames it
over the checkpoint file, and persistence happens immediately: whenever
a flush's bookkeeping changes the set, the checkpoint file holds exactly
the new set right after that flush. -/
theorem c6_checkpoint_monotone_persist :
    (∀ (fs : FS) (p : List String),
      saveProgress fs p = fsRename (fsWriteTmp fs p) ∧
      (fsWriteTmp fs p).tmpFile = some p ∧
      (saveProgress fs p).progressFile = some p) ∧
    (∀ (store : Store) (data : PgData) (st : RunState) (u x : String),
      x ∈ st.processed → x ∈ (processUnit store data st u).processed) ∧
    (∀ (store : Store) (data : PgData) (ids : List String)
       (P0 : List String) (fs0 : FS) (x : String),
      x ∈ P0 → x ∈ (backfillRun store data ids P0 fs0).processed) ∧
    (∀ (store : Store) (fr ar : String) (st : RunState),
      (flushAndReconcile store fr ar st).processed ≠ st.processed →
      (flushAndReconcile store fr ar st).fs.progressFile
        = some (flushAndReconcile store fr ar st).processed) := by
  refine ⟨fun fs p => ⟨rfl, rfl, rfl⟩,
    fun store data st u x hx => mem_processed_processUnit hx,
    fun store data ids P0 fs0 x hx =>
      mem_processed_flushAndReconcile (mem_processed_runLoop ids _ x hx),
    fun store fr ar st hne => ?_⟩
  rw [flushAndReconcile] at hne ⊢
  have hfb : (flushBulk store fr st).2.processed = st.processed ∧
      (flushBulk store fr st).2.fs = st.fs := by
    rw [flushBulk]
    by_cases hb : st.bulkOps = []
    · rw [if_pos hb]; exact ⟨rfl, rfl⟩
    · rw [if_neg hb]
      cases store st.bulkOps <;> exact ⟨rfl, rfl⟩
  by_cases hz : (addSucceeded (flushBulk store fr st).1.succeededIds
      (flushBulk store fr st).2.processed).2 = 0
  · exfalso
    apply hne
    simp only [reconcile, addSucceeded_added_zero _ _ hz]
    exact hfb.1
  · simp only [reconcile, if_pos (Nat.pos_of_ne_zero hz)]
    rfl

/-- C6 witness: the pieces of the theorem applied at concrete inputs:
a concrete persist writes the full set via temp-then-rename, a processed
id survives a concrete `processUnit` step and a concrete run, and a
concrete set-growing flush persists the grown set at once. -/
theorem c6_witness :
    (saveProgress fsEmpty ["a"]).progressFile = some ["a"] ∧
    "a" ∈ (processUnit okStore c2Data (initialState ["a"] fsEmpty) "b").processed ∧
    "a" ∈ (backfillRun okStore c2Data ["a", "b", "c", "d", "e", "f", "g"]
            ["a"] fsEmpty).processed ∧
    (flushAndReconcile c4Store "periodic" "bulk-periodic" c4State).fs.progressFile
      = some (flushAndReconcile c4Store "periodic" "bulk-periodic" c4State).processed :=
  ⟨(c6_checkpoint_monotone_persist.1 fsEmpty ["a"]).2.2,
   c6_checkpoint_monotone_persist.2.1 okStore c2Data (initialState ["a"] fsEmpty)
     "b" "a" (by decide),
   c6_checkpoint_monotone_persist.2.2.1 okStore c2Data
     ["a", "b", "c", "d", "e", "f", "g"] ["a"] fsEmpty "a" (by decide),
   c6_checkpoint_monotone_persist.2.2.2 c4Store "periodic" "bulk-periodic"
     c4State (by decide)⟩

/-! ## C1 — idempotence machinery -/

/-- The buffer invariant: one pending id per buffered operation. -/
def INVlen (st : RunState) : Prop := st.pendingIds.length = st.bulkOps.length

/-- An id already accounted for at state `st`: checkpointed, staged in
the current batch, or skipped for a data-determined reason. -/
def Good (data : PgData) (st : RunState) (x : String) : Prop :=
  x ∈ st.processed ∨ x ∈ st.pendingIds ∨ Ineligible data x

lemma flushAndReconcile_def (store : Store) (fr ar : String) (st : RunState) :
    flushAndReconcile store fr ar st
      = reconcile ar (flushBulk store fr st).1 (flushBulk store fr st).2 := rfl

lemma reconcile_processed (ar : String) (r : FlushResult) (s : RunState) :
    (reconcile ar r s).processed = (addSucceeded r.succeededIds s.processed).1 := rfl

lemma reconcile_pendingIds (ar : String) (r : FlushResult) (s : RunState) :
    (reconcile ar r s).pendingIds = s.pendingIds := rfl

lemma reconcile_bulkOps (ar : String) (r : FlushResult) (s : RunState) :
    (reconcile ar r s).bulkOps = s.bulkOps := rfl

lemma reconcile_failed (ar : String) (r : FlushResult) (s : RunState) :
    (reconcile ar r s).failed = s.failed + r.fail := rfl

lemma reconcile_success (ar : String) (r : FlushResult) (s : RunState) :
    (reconcile ar r s).success = s.success + r.ok := rfl

lemma reconcile_processedCount (ar : String) (r : FlushResult) (s : RunState) :
    (reconcile ar r s).processedCount = s.processedCount := rfl

/-- Fields of the state returned by `flushBulk` that are never touched. -/
lemma flushBulk_snd (store : Store) (fr : String) (st : RunState) :
    (flushBulk store fr st).2.processed = st.processed ∧
    (flushBulk store fr st).2.fs = st.fs ∧
    (flushBulk store fr st).2.failed = st.failed ∧
    (flushBulk store fr st).2.success = st.success ∧
    (flushBulk store fr st).2.processedCount = st.processedCount := by
  rw [flushBulk]
  by_cases hb : st.bulkOps = []
  · rw [if_pos hb]; exact ⟨rfl, rfl, rfl, rfl, rfl⟩
  · rw [if_neg hb]; cases store st.bulkOps <;> exact ⟨rfl, rfl, rfl, rfl, rfl⟩

/-- A non-empty flush clears both buffers. -/
lemma flushBulk_snd_cleared {store : Store} {fr : String} {st : RunState}
    (hb : st.bulkOps ≠ []) :
    (flushBulk store fr st).2.pendingIds = [] ∧
    (flushBulk store fr st).2.bulkOps = [] := by
  rw [flushBulk, if_neg hb]
  cases store st.bulkOps <;> exact ⟨rfl, rfl⟩

lemma flushAndReconcile_failed (store : Store) (fr ar : String) (st : RunState) :
    (flushAndReconcile store fr ar st).failed
      = st.failed + (flushBulk store fr st).1.fail := by
  rw [flushAndReconcile_def, reconcile_failed, (flushBulk_snd store fr st).2.2.1]

lemma flushAndReconcile_processedCount (store : Store) (fr ar : String)
    (st : RunState) :
    (flushAndReconcile store fr ar st).processedCount = st.processedCount := by
  rw [flushAndReconcile_def, reconcile_processedCount,
    (flushBulk_snd store fr st).2.2.2.2]

lemma invlen_flushAndReconcile {store : Store} {fr ar : String} {st : RunState}
    (hinv : INVlen st) : INVlen (flushAndReconcile store fr ar st) := by
  rw [INVlen, flushAndReconcile_def, reconcile_pendingIds, reconcile_bulkOps]
  by_cases hb : st.bulkOps = []
  · rw [flushBulk, if_pos hb]; exact hinv
  · rw [(flushBulk_snd_cleared hb).1, (flushBulk_snd_cleared hb).2]
    rfl

/-- The five-way branch structure of `processUnit`: either a pure skip,
or the unit is staged and the threshold check decides between a flush
and plain staging. -/
lemma processUnit_cases (store : Store) (data : PgData) (st : RunState)
    (u : String) :
    processUnit store data st u = { st with skipped := st.skipped + 1 } ∨
    ∃ st2 : RunState,
      st2 = { queueUpdate st ("contact_evaluation__" ++ resolveClient (data.ev u))
                u (((data.details u).map mkScoreDetail).filter keepDetail) with
              processedCount := st.processedCount + 1 } ∧
      (processUnit store data st u
          = flushAndReconcile store "periodic" "bulk-periodic" st2 ∨
        processUnit store data st u = st2) := by
  rw [processUnit]
  by_cases h1 : u ∈ st.processed
  · rw [if_pos h1]; exact Or.inl rfl
  · rw [if_neg h1]
    by_cases h2 : data.details u = []
    · rw [if_pos h2]; exact Or.inl rfl
    · rw [if_neg h2]
      by_cases h3 : ((data.details u).map mkScoreDetail).filter keepDetail = []
      · rw [if_pos h3]; exact Or.inl rfl
      · rw [if_neg h3]
        by_cases h4 : resolveClient (data.ev u) = "" ∨
            resolveClient (data.ev u) = EXCLUDED_CLIENT_ID
        · rw [if_pos h4]; exact Or.inl rfl
        · rw [if_neg h4]
          refine Or.inr ⟨_, rfl, ?_⟩
          by_cases h5 : BULK_FLUSH_SIZE ≤
              (queueUpdate st ("contact_evaluation__" ++ resolveClient (data.ev u))
                u (((data.details u).map mkScoreDetail).filter keepDetail)).bulkCount + 0
          · rw [if_pos (by simpa using h5)]; exact Or.inl rfl
          · rw [if_neg (by simpa using h5)]; exact Or.inr rfl

lemma failed_le_processUnit (store : Store) (data : PgData) (st : RunState)
    (u : String) : st.failed ≤ (processUnit store data st u).failed := by
  rcases processUnit_cases store data st u with h | ⟨st2, hst2, h | h⟩
  · rw [h]
  · rw [h, flushAndReconcile_failed, hst2]
    simp [queueUpdate]
  · rw [h, hst2]
    simp [queueUpdate]

lemma failed_le_runLoop (store : Store) (data : PgData) :
    ∀ (ids : List String) (st : RunState),
      st.failed ≤ (runLoop store data ids st).failed := by
  intro ids
  induction ids with
  | nil => intro st; exact le_refl _
  | cons u rest ih =>
    intro st
    rw [runLoop]
    by_cases hbr : MAX_REQUESTS ≤ st.processedCount
    · rw [if_pos hbr]
    · rw [if_neg hbr]
      exact (failed_le_processUnit store data st u).trans (ih _)

/-- A success response whose non-error count reaches its length is
all-ok. -/
lemma filter_not_all_false :
    ∀ items : List Bool,
      items.length ≤ (items.filter (fun e => !e)).length →
      ∀ e ∈ items, e = false := by
  intro items
  induction items with
  | nil => simp
  | cons e rest ih =>
    intro h x hx
    cases e
    · rcases List.mem_cons.mp hx with rfl | hx
      · rfl
      · refine ih ?_ x hx
        simpa using h
    · exfalso
      have hle := List.length_filter_le (fun e => !e) rest
      simp only [List.filter_cons, List.length_cons] at h
      simp at h
      omega

/-- All-ok outcomes classify every pending id as succeeded. -/
lemma classify_all_false :
    ∀ (items : List Bool) (pending : List String),
      (∀ e ∈ items, e = false) → items.length = pending.length →
      classifyItems items pending = (pending, []) := by
  intro items
  induction items with
  | nil =>
    intro pending _ hlen
    cases pending with
    | nil => rfl
    | cons id rest => simp at hlen
  | cons e rest ih =>
    intro pending hall hlen
    cases pending with
    | nil => simp at hlen
    | cons id prest =>
      have he : e = false := hall e (List.mem_cons_self _ _)
      subst he
      rw [classifyItems, ih prest (fun x hx => hall x (List.mem_cons_of_mem _ hx))
        (by simpa using hlen)]
      simp

/-- A flush step that adds no failures confirms every id that was
pending: all of them (and all previously checkpointed ids) are in the
Checkpoint Set afterwards, and the pending list is empty. -/
lemma flushAndReconcile_ok (store : Store) (fr ar : String) (st : RunState)
    (hwf : WFStore store) (hinv : INVlen st)
    (hfail : (flushAndReconcile store fr ar st).failed = st.failed) :
    (∀ x ∈ st.pendingIds, x ∈ (flushAndReconcile store fr ar st).processed) ∧
    (∀ x ∈ st.processed, x ∈ (flushAndReconcile store fr ar st).processed) ∧
    (flushAndReconcile store fr ar st).pendingIds = [] ∧
    INVlen (flushAndReconcile store fr ar st) := by
  rw [flushAndReconcile_failed] at hfail
  have hfz : (flushBulk store fr st).1.fail = 0 := by omega
  by_cases hb : st.bulkOps = []
  · have hp : st.pendingIds = [] := by
      rw [INVlen, hb] at hinv
      exact List.eq_nil_of_length_eq_zero (by simpa using hinv)
    refine ⟨by simp [hp], fun x hx => mem_processed_flushAndReconcile hx, ?_,
      invlen_flushAndReconcile hinv⟩
    rw [flushAndReconcile_def, reconcile_pendingIds, flushBulk, if_pos hb]
    exact hp
  · cases hres : store st.bulkOps with
    | transportError =>
      have hfv : (flushBulk store fr st).1.fail = st.pendingIds.length := by
        simp [flushBulk, if_neg hb, hres]
      have hp : st.pendingIds = [] :=
        List.eq_nil_of_length_eq_zero (by omega)
      refine ⟨by simp [hp], fun x hx => mem_processed_flushAndReconcile hx, ?_,
        invlen_flushAndReconcile hinv⟩
      rw [flushAndReconcile_def, reconcile_pendingIds, (flushBulk_snd_cleared hb).1]
    | success items =>
      have hilen : items.length = st.pendingIds.length := by
        rw [hwf _ _ hres]; exact hinv.symm
      have hfv : (flushBulk store fr st).1.fail
          = items.length - (items.filter (fun e => !e)).length := by
        simp [flushBulk, if_neg hb, hres]
      have hall : ∀ e ∈ items, e = false := by
        refine filter_not_all_false items ?_
        have hle := List.length_filter_le (fun e => !e) items
        omega
      have hclass : classifyItems items st.pendingIds = (st.pendingIds, []) :=
        classify_all_false items st.pendingIds hall hilen
      have hsucc : (flushBulk store fr st).1.succeededIds = st.pendingIds := by
        simp [flushBulk, if_neg hb, hres, hclass]
      refine ⟨?_, fun x hx => mem_processed_flushAndReconcile hx, ?_,
        invlen_flushAndReconcile hinv⟩
      · intro x hx
        rw [flushAndReconcile_def, reconcile_processed, (flushBulk_snd store fr st).1]
        exact mem_addSucceeded_of_mem_ids _ _ x (hsucc ▸ hx)
      · rw [flushAndReconcile_def, reconcile_pendingIds, (flushBulk_snd_cleared hb).1]

/-- A checkpointed or data-ineligible unit is a pure skip: the only
state change is the skip counter, before any query result is used. -/
lemma processUnit_skip {store : Store} {data : PgData} {st : RunState}
    {u : String} (h : u ∈ st.processed ∨ Ineligible data u) :
    processUnit store data st u = { st with skipped := st.skipped + 1 } := by
  by_cases h1 : u ∈ st.processed
  · simp [processUnit, h1]
  · have hinel : Ineligible data u := h.resolve_left h1
    by_cases h2 : data.details u = []
    · simp [processUnit, h1, h2]
    · by_cases h3 : ((data.details u).map mkScoreDetail).filter keepDetail = []
      · simp [processUnit, h1, h2, h3]
      · have h4 : resolveClient (data.ev u) = "" ∨
            resolveClient (data.ev u) = EXCLUDED_CLIENT_ID := by
          rcases hinel with h | h | h | h
          · exact absurd h h2
          · exact absurd h h3
          · exact Or.inl h
          · exact Or.inr h
        rcases h4 with h4 | h4 <;> simp [processUnit, h1, h2, h3, h4]

/-- One `processUnit` step that adds no failures accounts for its unit
and keeps every previously accounted unit accounted. -/
lemma processUnit_good (store : Store) (data : PgData) (st : RunState)
    (u : String) (hwf : WFStore store) (hinv : INVlen st)
    (hfail : (processUnit store data st u).failed = st.failed) :
    (∀ x, Good data st x → Good data (processUnit store data st u) x) ∧
    Good data (processUnit store data st u) u ∧
    INVlen (processUnit store data st u) := by
  by_cases h1 : u ∈ st.processed
  · rw [processUnit_skip (Or.inl h1)]
    exact ⟨fun x h => h, Or.inl h1, hinv⟩
  · by_cases h2 : data.details u = []
    · rw [processUnit_skip (Or.inr (Or.inl h2))]
      exact ⟨fun x h => h, Or.inr (Or.inr (Or.inl h2)), hinv⟩
    · by_cases h3 : ((data.details u).map mkScoreDetail).filter keepDetail = []
      · rw [processUnit_skip (Or.inr (Or.inr (Or.inl h3)))]
        exact ⟨fun x h => h, Or.inr (Or.inr (Or.inr (Or.inl h3))), hinv⟩
      · by_cases h4 : resolveClient (data.ev u) = "" ∨
            resolveClient (data.ev u) = EXCLUDED_CLIENT_ID
        · rw [processUnit_skip (Or.inr (Or.inr (Or.inr h4)))]
          refine ⟨fun x h => h, Or.inr (Or.inr (Or.inr (Or.inr h4))), hinv⟩
        · have hred : processUnit store data st u =
              (if BULK_FLUSH_SIZE ≤ st.bulkCount + 1 then
                flushAndReconcile store "periodic" "bulk-periodic"
                  { st with
                    bulkOps := st.bulkOps ++
                      [{ indexName := "contact_evaluation__" ++ resolveClient (data.ev u),
                         id := u,
                         doc := ((data.details u).map mkScoreDetail).filter keepDetail }],
                    bulkCount := st.bulkCount + 1,
                    pendingIds := st.pendingIds ++ [u],
                    processedCount := st.processedCount + 1 }
              else
                { st with
                  bulkOps := st.bulkOps ++
                    [{ indexName := "contact_evaluation__" ++ resolveClient (data.ev u),
                       id := u,
                       doc := ((data.details u).map mkScoreDetail).filter keepDetail }],
                  bulkCount := st.bulkCount + 1,
                  pendingIds := st.pendingIds ++ [u],
                  processedCount := st.processedCount + 1 }) := by
            simp [processUnit, h1, h2, h3, h4, queueUpdate]
          rw [hred] at hfail ⊢
          by_cases h5 : BULK_FLUSH_SIZE ≤ st.bulkCount + 1
          · rw [if_pos h5] at hfail ⊢
            have hinv2 : INVlen { st with
                bulkOps := st.bulkOps ++
                  [{ indexName := "contact_evaluation__" ++ resolveClient (data.ev u),
                     id := u,
                     doc := ((data.details u).map mkScoreDetail).filter keepDetail }],
                bulkCount := st.bulkCount + 1,
                pendingIds := st.pendingIds ++ [u],
                processedCount := st.processedCount + 1 } := by
              rw [INVlen] at hinv ⊢
              simp [hinv]
            obtain ⟨hA, hB, _, hD⟩ := flushAndReconcile_ok store "periodic"
              "bulk-periodic" _ hwf hinv2 hfail
            refine ⟨fun x h => ?_, ?_, hD⟩
            · rcases h with h | h | h
              · exact Or.inl (hB x h)
              · exact Or.inl (hA x (List.mem_append_left [u] h))
              · exact Or.inr (Or.inr h)
            · exact Or.inl (hA u (List.mem_append_right _ (by simp)))
          · rw [if_neg h5] at hfail ⊢
            refine ⟨fun x h => ?_, ?_, ?_⟩
            · rcases h with h | h | h
              · exact Or.inl h
              · exact Or.inr (Or.inl (List.mem_append_left [u] h))
              · exact Or.inr (Or.inr h)
            · exact Or.inr (Or.inl (List.mem_append_right _ (by simp)))
            · rw [INVlen] at hinv ⊢
              simp [hinv]

/-- Over a failure-free prefix of the loop that never hits the
`MAX_REQUESTS` early stop, every visited unit ends up accounted. -/
lemma runLoop_good (store : Store) (data : PgData) (hwf : WFStore store) :
    ∀ (ids : List String) (st : RunState),
      INVlen st →
      (runLoop store data ids st).failed = st.failed →
      (runLoop store data ids st).processedCount < MAX_REQUESTS →
      (∀ x, Good data st x → Good data (runLoop store data ids st) x) ∧
      (∀ u ∈ ids, Good data (runLoop store data ids st) u) ∧
      INVlen (runLoop store data ids st) := by
  intro ids
  induction ids with
  | nil => intro st hinv _ _; exact ⟨fun x h => h, by simp, hinv⟩
  | cons u rest ih =>
    intro st hinv hfail hcap
    rw [runLoop] at hfail hcap ⊢
    by_cases hbr : MAX_REQUESTS ≤ st.processedCount
    · rw [if_pos hbr] at hcap
      exact absurd hcap (not_lt.mpr hbr)
    · rw [if_neg hbr] at hfail hcap ⊢
      have hm1 := failed_le_processUnit store data st u
      have hm2 := failed_le_runLoop store data rest (processUnit store data st u)
      have hstep : (processUnit store data st u).failed = st.failed := by omega
      have hrest : (runLoop store data rest (processUnit store data st u)).failed
          = (processUnit store data st u).failed := by omega
      obtain ⟨pres1, good1, hinv1⟩ := processUnit_good store data st u hwf hinv hstep
      obtain ⟨pres2, good2, hinv2⟩ := ih (processUnit store data st u) hinv1 hrest hcap
      refine ⟨fun x h => pres2 x (pres1 x h), fun v hv => ?_, hinv2⟩
      rcases List.mem_cons.mp hv with rfl | hv
      · exact pres2 v good1
      · exact good2 v hv

/-- A run over units that are all checkpointed or data-ineligible only
bumps the skip counter. -/
lemma runLoop_skips (store : Store) (data : PgData) :
    ∀ (ids : List String) (st : RunState),
      (∀ u ∈ ids, u ∈ st.processed ∨ Ineligible data u) →
      (runLoop store data ids st).success = st.success ∧
      (runLoop store data ids st).processed = st.processed ∧
      (runLoop store data ids st).bulkOps = st.bulkOps ∧
      (runLoop store data ids st).pendingIds = st.pendingIds := by
  intro ids
  induction ids with
  | nil => intro st _; exact ⟨rfl, rfl, rfl, rfl⟩
  | cons u rest ih =>
    intro st hall
    rw [runLoop]
    by_cases hbr : MAX_REQUESTS ≤ st.processedCount
    · rw [if_pos hbr]; exact ⟨rfl, rfl, rfl, rfl⟩
    · rw [if_neg hbr, processUnit_skip (hall u (List.mem_cons_self _ _))]
      exact ih { st with skipped := st.skipped + 1 }
        (fun v hv => hall v (List.mem_cons_of_mem _ hv))

/-- A final flush over an empty buffer adds no successes. -/
lemma flushAndReconcile_empty {store : Store} {fr ar : String} {st : RunState}
    (hb : st.bulkOps = []) :
    (flushAndReconcile store fr ar st).success = st.success := by
  simp [flushAndReconcile_def, reconcile_success, flushBulk, hb]

/-- C1 (amended): checkpointed ids are always skipped before any query,
transform or enqueue (second conjunct, unconditional), and a re-run with
the Checkpoint Set produced by a first run yields zero new successes
PROVIDED the first run had no failures, did not stop early at the
`MAX_REQUESTS` cap, and the store returns one outcome per operation.
(Without those provisos the claim is false — see the counterexample.) -/
theorem c1_idempotence_amended (store : Store) (data : PgData)
    (ids P0 : List String) (fs0 fs1 : FS)
    (hwf : WFStore store)
    (hfail : (backfillRun store data ids P0 fs0).failed = 0)
    (hcap : (backfillRun store data ids P0 fs0).processedCount < MAX_REQUESTS) :
    (backfillRun store data ids
        ((backfillRun store data ids P0 fs0).processed) fs1).success = 0 ∧
    (∀ (st : RunState) (u : String), u ∈ st.processed →
      processUnit store data st u = { st with skipped := st.skipped + 1 }) := by
  refine ⟨?_, fun st u h => processUnit_skip (Or.inl h)⟩
  have hrun1 : backfillRun store data ids P0 fs0
      = flushAndReconcile store "final" "bulk-final"
          (runLoop store data ids (initialState P0 fs0)) := rfl
  set stL := runLoop store data ids (initialState P0 fs0) with hstLdef
  have hcnt : stL.processedCount < MAX_REQUESTS := by
    rw [hrun1, flushAndReconcile_processedCount] at hcap
    exact hcap
  have hfr := flushAndReconcile_failed store "final" "bulk-final" stL
  have hL0 : stL.failed = 0 := by
    rw [hrun1] at hfail
    omega
  have hloopfail : stL.failed = (initialState P0 fs0).failed := hL0
  have hfinfail : (flushAndReconcile store "final" "bulk-final" stL).failed
      = stL.failed := by
    rw [hrun1] at hfail
    rw [hfail, hL0]
  obtain ⟨presL, goodL, hinvL⟩ := runLoop_good store data hwf ids
    (initialState P0 fs0) rfl hloopfail hcnt
  obtain ⟨hp2, hpp, hpe, hinvF⟩ := flushAndReconcile_ok store "final" "bulk-final"
    stL hwf hinvL hfinfail
  have hcov : ∀ u ∈ ids,
      u ∈ (backfillRun store data ids P0 fs0).processed ∨ Ineligible data u := by
    intro u hu
    rcases goodL u hu with h | h | h
    · exact Or.inl (by rw [hrun1]; exact hpp u h)
    · exact Or.inl (by rw [hrun1]; exact hp2 u h)
    · exact Or.inr h
  have hrun2 : backfillRun store data ids
      (backfillRun store data ids P0 fs0).processed fs1
      = flushAndReconcile store "final" "bulk-final"
          (runLoop store data ids
            (initialState (backfillRun store data ids P0 fs0).processed fs1)) := rfl
  have hskips := runLoop_skips store data ids
    (initialState (backfillRun store data ids P0 fs0).processed fs1)
    (fun u hu => hcov u hu)
  rw [hrun2, flushAndReconcile_empty (hskips.2.2.1.trans rfl), hskips.1]
  rfl

/-- Data for the C1 counterexample and witness: units u1–u4 each carry
one surviving detail row and a valid tenant; u5 has no rows. -/
def c1Data : PgData :=
  { details := fun id => if id = "u5" then [] else [goodRow],
    ev := fun _ => some evGood }

/-- C1 counterexample: over an unchanged data source with four eligible
units and a store reporting full success, the first run checkpoints only
u1–u3 (the `MAX_REQUESTS = 3` cap stops it), so the second run — with
the Checkpoint Set produced by the first — stages u4 and succeeds on it:
2 successes on the first run's leftovers, not zero. -/
theorem c1_counterexample :
    (backfillRun okStore c1Data ["u1", "u2", "u3", "u4", "u5"] [] fsEmpty).failed = 0 ∧
    (backfillRun okStore c1Data ["u1", "u2", "u3", "u4", "u5"]
        ((backfillRun okStore c1Data ["u1", "u2", "u3", "u4", "u5"]
            [] fsEmpty).processed)
        fsEmpty).success ≠ 0 :=
  ⟨by decide, by decide⟩

/-- C1 witness: with two units (one eligible, one without rows) the
first run attempts everything below the cap with no failures, and the
theorem yields zero successes on the second run. -/
theorem c1_witness :
    (backfillRun okStore c1Data ["u1", "u5"]
        ((backfillRun okStore c1Data ["u1", "u5"] [] fsEmpty).processed)
        fsEmpty).success = 0 :=
  (c1_idempotence_amended okStore c1Data ["u1", "u5"] [] fsEmpty fsEmpty
    (fun ops items h => by
      simp only [okStore] at h
      cases h
      simp)
    (by decide) (by decide)).1

end Backfill
